import Mathlib

/-!
Verification development for the financial consolidation script
(`financial_consolidation_app.py`).  The pure inference / matching / merge
logic of the script is shallowly embedded here:

* spreadsheet cell values become the inductive type `Cell` (empty cell,
  number, text); numbers are modelled as exact rationals (the script's float
  arithmetic on these inputs is exact for the operations used: sums,
  halving, and the gradient computation, which was checked exhaustively
  over its finite score/threshold domain);
* Python regular-expression operations used by the script (word-boundary
  synonym rewriting, word search, the `y.t.d` header pattern) are
  implemented directly on character lists;
* fallible operations (Python exceptions) return `Except`;
* the fuzzy string scorer of the external `fuzzywuzzy` library is an
  explicit parameter (`String → String → ℕ`); the script-side selection
  logic (`process.extractOne`: maximum score, first-encountered tie break)
  is embedded.

Column-1 label cells are modelled as strings, with the empty string for an
empty cell; this is the domain on which the script itself is total (a
numeric label cell would crash its `(value or "").strip()` reads).
-/

namespace FinConsol

/-- Cell values as read from a spreadsheet or a tabular grid: empty
(`None`/`NaN`), numeric, or text. -/
inductive Cell where
  | blank
  | num (q : ℚ)
  | txt (s : String)
deriving DecidableEq, Repr

deriving instance DecidableEq for Except

/-- Python whitespace (the characters matched by `str.strip` and `\s`
on the ASCII range). -/
def pyIsSpace (c : Char) : Bool :=
  c = ' ' || c = '\t' || c = '\n' || c = '\r' || c = Char.ofNat 11 || c = Char.ofNat 12

/-- Python `str.strip()`. -/
def stripChars (l : List Char) : List Char :=
  ((l.dropWhile pyIsSpace).reverse.dropWhile pyIsSpace).reverse

/-- Python `str.lower()` (ASCII; the labels involved are ASCII). -/
def lowerChars (l : List Char) : List Char := l.map Char.toLower

/-- Python `str.upper()` (ASCII). -/
def upperChars (l : List Char) : List Char := l.map Char.toUpper

def stripS (s : String) : String := String.mk (stripChars s.data)

def upperStr (s : String) : String := String.mk (upperChars s.data)

def lowerStr (s : String) : String := String.mk (lowerChars s.data)

/-- The characters replaced by a space in `normalize_label`
(the character class of the regex at line 164: slash, comma, parentheses,
em dash, en dash, hyphen, colon). -/
def isStripPunct (c : Char) : Bool :=
  c = '/' || c = ',' || c = '(' || c = ')' ||
  c = Char.ofNat 0x2014 || c = Char.ofNat 0x2013 || c = '-' || c = ':'

def replacePunct (l : List Char) : List Char :=
  l.map (fun c => if isStripPunct c then ' ' else c)

/-- Collapse every maximal run of whitespace into a single space
(the regex substitution of `\s+` by a space). -/
def collapseGo : Bool → List Char → List Char
  | _, [] => []
  | prevWs, c :: cs =>
      if pyIsSpace c then
        if prevWs then collapseGo true cs else ' ' :: collapseGo true cs
      else c :: collapseGo false cs

def collapseWs (l : List Char) : List Char := collapseGo false l

/-- Python `\w` on the relevant (ASCII) range: a word character for the
purposes of the `\b` boundary. -/
def isWordChar (c : Char) : Bool := c.isAlphanum || c = '_'

/-- Tokens of the literal synonym patterns: a literal character, or the
`\s+` whitespace run of the one pattern that contains it. -/
inductive PatTok where
  | ch (c : Char)
  | ws
deriving DecidableEq, Repr

/-- The literal pattern of a plain phrase. -/
def lit (s : String) : List PatTok := s.data.map PatTok.ch

/-- Split a maximal leading whitespace run off a character list. -/
def takeWs : List Char → List Char × List Char
  | [] => ([], [])
  | c :: cs =>
      if pyIsSpace c then
        let p := takeWs cs
        (c :: p.1, p.2)
      else ([], c :: cs)

/-- Match a token list at the front of a character list; on success return
the matched characters and the remainder.  `\s+` consumes a maximal
nonempty whitespace run (equivalent to the regex here, since the token
after it never matches whitespace). -/
def matchToks : List PatTok → List Char → Option (List Char × List Char)
  | [], rest => some ([], rest)
  | .ch _ :: _, [] => Option.none
  | .ch c :: ps, d :: ds =>
      if d = c then (matchToks ps ds).map (fun p => (d :: p.1, p.2)) else Option.none
  | .ws :: ps, l =>
      let w := takeWs l
      if w.1.isEmpty then Option.none
      else (matchToks ps w.2).map (fun p => (w.1 ++ p.1, p.2))

/-- Is a `\b` boundary present before the (word-character) head of the
pattern, given the previous character of the string? -/
def boundaryOk (prev : Option Char) : Bool :=
  match prev with
  | Option.none => true
  | some c => !(isWordChar c)

/-- Is a `\b` boundary present after the (word-character) tail of the
pattern, given the remainder of the string? -/
def endBoundaryOk : List Char → Bool
  | [] => true
  | c :: _ => !(isWordChar c)

/-- One `re.sub` pass of a `\b`-delimited pattern over a string: scan left
to right, replace each non-overlapping leftmost match, continue after the
matched region of the original string (boundaries are judged on the
original characters, as `re.sub` does).  The fuel argument is initialized
to the string length by `subst1`; every recursive call consumes at least
one character of the scanned list, so the fuel never runs out before the
list does (the fuel-0 case and the nil case both return the remaining
list). -/
def substGo (p : List PatTok) (rep : List Char) : ℕ → Option Char → List Char → List Char
  | 0, _, l => l
  | _ + 1, _, [] => []
  | fuel + 1, prev, c :: cs =>
    if p = [] then c :: cs
    else if boundaryOk prev then
      match matchToks p (c :: cs) with
      | some (m, rest) =>
          if endBoundaryOk rest then rep ++ substGo p rep fuel m.getLast? rest
          else c :: substGo p rep fuel (some c) cs
      | Option.none => c :: substGo p rep fuel (some c) cs
    else c :: substGo p rep fuel (some c) cs

/-- A full `re.sub(pattern, rep, s)` pass for a `\b`-delimited pattern. -/
def subst1 (p : List PatTok) (rep : String) (l : List Char) : List Char :=
  substGo p rep.data l.length Option.none l

/-- The ordered synonym rewrite table of `normalize_label`
(lines 166–211 of the source, in source order; `\b` boundaries are implicit
in the application, `\s+` is the explicit `PatTok.ws`). -/
def synonyms : List (List PatTok × String) := [
  (lit "industrial rent", "rental income"),
  (lit "retail rental income", "rental income"),
  (lit "office rent", "rental income"),
  (lit "rental revenue", "rental income"),
  (lit "rental income", "rental income"),
  (lit "lease - cp rail", "rent"),
  (lit "merchandise revenue", "merchandise income"),
  (lit "merchandise income", "merchandise income"),
  (lit "insurance revenue", "insurance income"),
  (lit "insurance income", "insurance income"),
  (lit "truck rental", "truck rental"),
  (lit "uhaul", "truck rental"),
  (lit "bad debt", "bad debt"),
  (lit "bad debts", "bad debt"),
  (lit "office supplies", "office"),
  (lit "professional fees", "professional"),
  (lit "property mgt. fee", "management fee"),
  (lit "management fee", "management fee"),
  (lit "amortization/finance cost", "amortization"),
  (lit "amortization/finance costs", "amortization"),
  (lit "amortization", "amortization"),
  (lit "depreciation", "depreciation"),
  (lit "mortgage interest", "mortgage interest"),
  (lit "mortgage loan interest", "mortgage interest"),
  (lit "legal fee", "legal fees"),
  (lit "legal fees", "legal fees"),
  (lit "lease payment", "lease payment"),
  (lit "gain on sale of asset", "gain/loss on investment"),
  (lit "gain/loss on investment", "gain/loss on investment"),
  (lit "other income", "other income"),
  (lit "other revenue", "other income"),
  (lit "utilities", "utilities"),
  (lit "maintenance & repairs", "maintenance"),
  (lit "maintenance", "maintenance"),
  (lit "insurance", "insurance"),
  (lit "advertising", "advertising"),
  (lit "bank charges", "bank charges"),
  (lit "realty taxes", "realty taxes"),
  (lit "realty tax", "realty taxes"),
  (lit "salaries & benefits", "salaries"),
  (lit "salaries", "salaries"),
  (lit "telephone", "telephone"),
  (lit "office", "office"),
  (lit "lease" ++ [PatTok.ws] ++ lit "cp" ++ [PatTok.ws] ++ lit "rail", "rent")
]

/-- The label normalizer (`normalize_label`, lines 160–214): empty input
yields the empty string; otherwise lower-case, strip, replace the
punctuation class by spaces, collapse whitespace, apply the ordered
synonym rules, and strip the result. -/
def normalize_label (raw : String) : String :=
  if raw = "" then ""
  else
    let s0 := collapseWs (replacePunct (stripChars (lowerChars raw.data)))
    let s1 := synonyms.foldl (fun acc pr => subst1 pr.1 pr.2 acc) s0
    String.mk (stripChars s1)

/-- Does a plain prefix match at the front of a list? -/
def frontMatches : List Char → List Char → Bool
  | [], _ => true
  | _ :: _, [] => false
  | p :: ps, c :: cs => p = c && frontMatches ps cs

/-- Does any suffix of the list satisfy the test? -/
def anySuffix (t : List Char → Bool) : List Char → Bool
  | [] => t []
  | c :: cs => t (c :: cs) || anySuffix t cs

/-- Case-sensitive substring containment (Python `pat in s`). -/
def containsSub (pat s : String) : Bool :=
  anySuffix (frontMatches pat.data) s.data

/-- Does a `\b`-delimited pattern match somewhere in the list
(`re.search` of a word pattern)?  The scan carries the previous character
for the leading boundary. -/
def searchWordGo (p : List PatTok) : Option Char → List Char → Bool
  | _, [] => false
  | prev, c :: cs =>
      (boundaryOk prev &&
        (match matchToks p (c :: cs) with
         | some pr => endBoundaryOk pr.2
         | Option.none => false)) ||
      searchWordGo p (some c) cs

/-- Case-insensitive word search: `re.search(r'\b…\b', s, re.IGNORECASE)`
for a lower-case literal phrase. -/
def containsWordCI (phrase s : String) : Bool :=
  searchWordGo (lit phrase) Option.none (lowerChars s.data)

/-- Tail of the `y\.?t\.?d` pattern after the `t`: `\.?d`. -/
def tdTail : List Char → Bool
  | '.' :: 'd' :: _ => true
  | 'd' :: _ => true
  | _ => false

/-- Does the regex `y\.?t\.?d` match at the head of the (lowered) list? -/
def matchYtdAt : List Char → Bool
  | 'y' :: '.' :: 't' :: r2 => tdTail r2
  | 'y' :: 't' :: r2 => tdTail r2
  | _ => false

/-- `re.search(r'y\.?t\.?d', s, re.IGNORECASE)`. -/
def searchYtd (s : String) : Bool := anySuffix matchYtdAt (lowerChars s.data)

/-- An income-statement worksheet as accessed by the script: 1-based rows
and columns.  `label` is the column-1 cell modelled as a string (empty
string for an empty cell: the script reads column 1 as
`(value or "").strip()`, on which `None` and `""` coincide, and would
crash on a numeric label cell, so string-or-empty is its total domain).
`cellv` gives the cells of columns 2 and beyond. -/
structure ISheet where
  maxRow : ℕ
  maxCol : ℕ
  label : ℕ → String
  cellv : ℕ → ℕ → Cell

/-- The cell at (row, col), with column 1 the label column. -/
def cellAt (s : ISheet) (r c : ℕ) : Cell :=
  if c = 1 then Cell.txt (s.label r) else s.cellv r c

/-- Whole-line case-insensitive header equality: the script's
`re.compile(r'^\s*revenue\s*$', re.IGNORECASE).match(val)` on the
already-stripped cell text. -/
def isHeader (w : String) (cell : String) : Bool :=
  String.mk (lowerChars (stripChars cell.data)) = w

/-- One row of the primary anchor scan of `find_anchor_rows`
(lines 237–246): the `if/elif` chain sets each anchor on the first row
whose column-1 text matches its whole-line pattern; once all three are set
the loop breaks (modelled by leaving the state unchanged). -/
def primaryStep (s : ISheet) (st : Option ℕ × Option ℕ × Option ℕ) (r : ℕ) :
    Option ℕ × Option ℕ × Option ℕ :=
  if st.1.isSome && st.2.1.isSome && st.2.2.isSome then st
  else
    let v := s.label r
    if st.1 = Option.none && isHeader "revenue" v then (some r, st.2.1, st.2.2)
    else if st.2.1 = Option.none && isHeader "expenses" v then (st.1, some r, st.2.2)
    else if st.2.2 = Option.none && isHeader "income" v then (st.1, st.2.1, some r)
    else st

/-- The state of `find_anchor_rows` after its primary header scan. -/
def primaryRes (s : ISheet) : Option ℕ × Option ℕ × Option ℕ :=
  (List.range' 1 s.maxRow).foldl (primaryStep s) (Option.none, Option.none, Option.none)

/-- First row in `lo..hi` whose normalized column-1 label equals `key`
(the fallback searches of `find_anchor_rows`). -/
def firstFrom (s : ISheet) (lo hi : ℕ) (key : String) : Option ℕ :=
  (List.range' lo (hi + 1 - lo)).find? (fun r => normalize_label (s.label r) = key)

/-- The revenue anchor (lines 248–253): the primary scan's hit, else the
first `rental income` row minus one, clamped to row 1. -/
def anchorRev (s : ISheet) : Option ℕ :=
  match (primaryRes s).1 with
  | some v => some v
  | Option.none => (firstFrom s 1 s.maxRow "rental income").map (fun r => max (r - 1) 1)

/-- The expenses anchor (lines 255–260): the primary scan's hit, else
(given a revenue anchor) the first later `advertising` row minus one,
clamped past the revenue anchor. -/
def anchorExp (s : ISheet) : Option ℕ :=
  match (primaryRes s).2.1 with
  | some v => some v
  | Option.none =>
      match anchorRev s with
      | some rv =>
          (firstFrom s (rv + 1) s.maxRow "advertising").map (fun r => max (r - 1) (rv + 1))
      | Option.none => Option.none

/-- The income anchor (lines 262–267): the primary scan's hit, else
(given an expenses anchor) the first later `management fee` row minus one,
clamped past the expenses anchor. -/
def anchorInc (s : ISheet) : Option ℕ :=
  match (primaryRes s).2.2 with
  | some v => some v
  | Option.none =>
      match anchorExp s with
      | some ev =>
          (firstFrom s (ev + 1) s.maxRow "management fee").map (fun r => max (r - 1) (ev + 1))
      | Option.none => Option.none

/-- `find_anchor_rows` (lines 231–269): primary whole-line header scan for
"revenue"/"expenses"/"income", then per-anchor fallbacks on sentinel
normalized labels, each clamped to land after the previous anchor. -/
def find_anchor_rows (s : ISheet) : Option ℕ × Option ℕ × Option ℕ :=
  (anchorRev s, anchorExp s, anchorInc s)

/-- Text of a cell as the script reads header cells
(`value or ""` then an `isinstance(str)` check: empty and numeric cells
contribute no searchable text). -/
def cellStr (s : ISheet) (r c : ℕ) : String :=
  match cellAt s r c with
  | Cell.txt t => t
  | _ => ""

/-- `find_ytd_column` (lines 272–278): scan header rows 1–5, columns left
to right, for a string cell matching `y\.?t\.?d` case-insensitively;
default to column 8. -/
def find_ytd_column (s : ISheet) : ℕ :=
  match ((List.range' 1 5).flatMap (fun hr => (List.range' 1 s.maxCol).map (fun c => (hr, c)))).find?
      (fun p => searchYtd (cellStr s p.1 p.2)) with
  | some p => p.2
  | Option.none => 8

/-- An accumulation map (a Python dict from normalized label to number):
an association list; insertion appends, update rewrites in place, which
matches dict semantics for both lookup and key order. -/
abbrev Acc := List (String × ℚ)

def aGet? {α : Type} (d : List (String × α)) (k : String) : Option α :=
  (d.find? (fun p => p.1 = k)).map (fun p => p.2)

def aHas {α : Type} (d : List (String × α)) (k : String) : Bool :=
  d.any (fun p => p.1 = k)

def aSet {α : Type} (d : List (String × α)) (k : String) (v : α) : List (String × α) :=
  match d with
  | [] => [(k, v)]
  | p :: rest => if p.1 = k then (k, v) :: rest else p :: aSet rest k v

/-- `dict.get(key, 0)`. -/
def dGet (d : Acc) (k : String) : ℚ := (aGet? d k).getD 0

/-- The script's value read `val = cell.value or 0` followed by the
addition `number + val`: empty cells and the empty string give zero, a
number gives itself, and a non-empty text value makes the addition raise
`TypeError` (modelled as `Except.error`). -/
def readVal (c : Cell) : Except Unit ℚ :=
  match c with
  | Cell.blank => Except.ok 0
  | Cell.num q => Except.ok q
  | Cell.txt t => if t = "" then Except.ok 0 else Except.error ()

/-- The numeric content a cell contributes when the read succeeds. -/
def cellNum (c : Cell) : ℚ :=
  match c with
  | Cell.num q => q
  | _ => 0

/-- One row of a bounded band loop of `parse_income_sheet_ytd`
(lines 304–324): skip empty labels and the band's total sentinel,
otherwise accumulate the value-column cell under the normalized label. -/
def bandStep (s : ISheet) (col : ℕ) (skipPhrase : String) (acc : Except Unit Acc) (r : ℕ) :
    Except Unit Acc :=
  match acc with
  | Except.error e => Except.error e
  | Except.ok d =>
      let raw := s.label r
      if raw = "" then Except.ok d
      else if containsWordCI skipPhrase raw then Except.ok d
      else
        match readVal (cellAt s r col) with
        | Except.error e => Except.error e
        | Except.ok v =>
            let key := normalize_label raw
            Except.ok (aSet d key (dGet d key + v))

/-- A bounded band of `parse_income_sheet_ytd`: rows `lo..hi`. -/
def parseBand (s : ISheet) (col : ℕ) (skipPhrase : String) (lo hi : ℕ) : Except Unit Acc :=
  (List.range' lo (hi + 1 - lo)).foldl (bandStep s col skipPhrase) (Except.ok [])

/-- Stop condition of the income band's while loop (lines 327–337):
an empty label, a `\btotal\b` match, or a `\bnet rental income\b` match
ends the band. -/
def incomeStop (s : ISheet) (r : ℕ) : Bool :=
  s.label r = "" || containsWordCI "total" (s.label r) ||
    containsWordCI "net rental income" (s.label r)

/-- The income band's while loop; the fuel counts the rows left up to
`maxRow`, so running out of fuel is exactly the loop condition
`r <= max_row` failing. -/
def incomeGo (s : ISheet) (col : ℕ) : ℕ → ℕ → Acc → Except Unit Acc
  | 0, _, d => Except.ok d
  | fuel + 1, r, d =>
      if incomeStop s r then Except.ok d
      else
        match readVal (cellAt s r col) with
        | Except.error e => Except.error e
        | Except.ok v =>
            let key := normalize_label (s.label r)
            incomeGo s col fuel (r + 1) (aSet d key (dGet d key + v))

/-- `parse_income_sheet_ytd` (lines 290–339): with all three anchors
found, read the revenue band (skipping `total revenue` rows), the expenses
band (skipping `total operating expenses` rows), and the income band
(stopping at `total` / `net rental income`), accumulating the YTD-column
cell under each normalized label; a missing anchor yields three empty
maps.  A non-empty text value in the value column raises (`Except.error`),
exactly as the script's `dict.get(key, 0) + val` does. -/
def parse_income_sheet_ytd (s : ISheet) : Except Unit (Acc × Acc × Acc) :=
  match find_anchor_rows s with
  | (some a, some b, some c) =>
      match parseBand s (find_ytd_column s) "total revenue" (a + 1) (b - 1) with
      | Except.error e => Except.error e
      | Except.ok rev =>
          match parseBand s (find_ytd_column s) "total operating expenses" (b + 1) (c - 1) with
          | Except.error e => Except.error e
          | Except.ok exp =>
              match incomeGo s (find_ytd_column s) (s.maxRow - c) (c + 1) [] with
              | Except.error e => Except.error e
              | Except.ok inc => Except.ok (rev, exp, inc)
  | _ => Except.ok ([], [], [])

/-- The contract of `fuzzywuzzy.process.extractOne(query, candidates,
scorer)`: the candidate with the maximal score, ties broken by
first-encountered order; `None` on an empty candidate list.  The scorer
itself is external library code and is a parameter. -/
def extractOne (scorer : String → String → ℕ) (q : String) (cands : List String) :
    Option (String × ℕ) :=
  cands.foldl
    (fun best c =>
      match best with
      | Option.none => some (c, scorer q c)
      | some (bm, bs) => if scorer q c > bs then some (c, scorer q c) else some (bm, bs))
    Option.none

/-- The gradient's green channel (lines 499–500):
`int(255 * (score - threshold) / (100 - threshold))`, exact over the
rationals; for the script's integer scores and thresholds the float
computation truncates to exactly this floor (checked exhaustively over
`0 ≤ threshold < 100`, `threshold ≤ score ≤ 100`). -/
def greenChannel (score threshold : ℕ) : ℤ :=
  Int.floor ((255 : ℚ) * (((score : ℚ) - (threshold : ℚ)) / ((100 : ℚ) - (threshold : ℚ))))

/-- An uppercase hexadecimal digit. -/
def hexDigit (n : ℕ) : Char :=
  if n < 10 then Char.ofNat (48 + n) else Char.ofNat (55 + n)

/-- The fill color string of line 501, `f"FF{green:02X}00"`, for green
values in `0..255` (the range established for every accepted match). -/
def fillColor (score threshold : ℕ) : String :=
  let g := (greenChannel score threshold).toNat
  String.mk (['F', 'F'] ++ [hexDigit (g / 16), hexDigit (g % 16)] ++ ['0', '0'])

/-- The effect of `match_and_write` on one template row: skip, or write a
value with an optional gradient fill. -/
inductive Act where
  | skip
  | write (v : ℚ) (fill : Option String)
deriving DecidableEq, Repr

/-- One row of `match_and_write` (lines 479–510): strip and normalize the
template's own column-1 label; skip blank keys and `\btotal\b` rows;
exact key hit writes verbatim; otherwise the best fuzzy match at or above
the threshold writes the matched value with the gradient fill, and
everything else writes zero. -/
def rowAct (s : ISheet) (src : Acc) (threshold : ℕ) (scorer : String → String → ℕ)
    (r : ℕ) : Act :=
  if normalize_label (stripS (s.label r)) = "" ||
      containsWordCI "total" (stripS (s.label r)) then Act.skip
  else if aHas src (normalize_label (stripS (s.label r))) then
    Act.write (dGet src (normalize_label (stripS (s.label r)))) Option.none
  else
    match extractOne scorer (normalize_label (stripS (s.label r)))
        (src.map (fun p => p.1)) with
    | some (bm, sc) =>
        if sc ≥ threshold then Act.write (dGet src bm) (some (fillColor sc threshold))
        else Act.write 0 Option.none
    | Option.none => Act.write 0 Option.none

/-- `match_and_write` over a template row range: the list of per-row write
actions (all writes of one call target the same fixed column, so actions
are keyed by row). -/
def match_and_write (s : ISheet) (startRow endRow : ℕ) (src : Acc) (threshold : ℕ)
    (scorer : String → String → ℕ) : List (ℕ × Act) :=
  (List.range' startRow (endRow + 1 - startRow)).map
    (fun r => (r, rowAct s src threshold scorer r))

/-- Replace every occurrence of a (nonempty) pattern, Python
`str.replace`; fuel as in `substGo`. -/
def replGo (p rep : List Char) : ℕ → List Char → List Char
  | 0, l => l
  | _ + 1, [] => []
  | fuel + 1, c :: cs =>
      if !p.isEmpty && frontMatches p (c :: cs) then
        rep ++ replGo p rep fuel (List.drop (p.length - 1) cs)
      else c :: replGo p rep fuel cs

def replaceAll (pat rep s : String) : String :=
  String.mk (replGo pat.data rep.data s.data.length s.data)

/-- Consume a maximal run of decimal digits, returning the count and the
remainder. -/
def dropDigits : List Char → ℕ × List Char
  | [] => (0, [])
  | c :: cs =>
      if c.isDigit then
        let p := dropDigits cs
        (p.1 + 1, p.2)
      else (0, c :: cs)

/-- Match the duplicate-upload tag `\s*\(\d+\)(?=\.xlsx)` at the head of
the list; on success return the remainder starting at the `.xlsx`
lookahead (which is not consumed). -/
def matchDupTag (l : List Char) : Option (List Char) :=
  let w := takeWs l
  match w.2 with
  | '(' :: l2 =>
      let d := dropDigits l2
      if d.1 = 0 then Option.none
      else
        match d.2 with
        | ')' :: l4 => if frontMatches ".xlsx".data l4 then some l4 else Option.none
        | _ => Option.none
  | _ => Option.none

/-- `normalize_filename` (lines 216–221): delete every duplicate-upload
tag `" (n)"` standing directly before `.xlsx`; fuel as in `substGo`
(every match consumes at least the three characters `(n)`). -/
def normFnGo : ℕ → List Char → List Char
  | 0, l => l
  | _ + 1, [] => []
  | fuel + 1, c :: cs =>
      match matchDupTag (c :: cs) with
      | some rest => normFnGo fuel rest
      | Option.none => c :: normFnGo fuel cs

def normalize_filename (f : String) : String :=
  String.mk (normFnGo f.data.length f.data)

/-- The `filename_to_header` table (lines 146–156), parameterized by the
configured year as in the source. -/
def filename_to_header (year : ℕ) : List (String × String) := [
  ("fs" ++ toString year ++ "Bedford.xlsx", "Bedford"),
  ("fs" ++ toString year ++ "Beechgrove.xlsx", "Scarborough"),
  ("fs" ++ toString year ++ "Bering.xlsx", "380 Bering"),
  ("fs" ++ toString year ++ "Dundas.xlsx", "Dundas"),
  ("fs" ++ toString year ++ "Eastern.xlsx", "Eastern"),
  ("fs" ++ toString year ++ "Laird.xlsx", "1 Laird"),
  ("fs" ++ toString year ++ "Laird33.xlsx", "33 Laird"),
  ("fs" ++ toString year ++ "Lakeshore.xlsx", "Lakeshore"),
  ("fs" ++ toString year ++ "Weston.xlsx", "207 Weston")
]

/-- Site resolution of `process_one_file_ytd` (lines 516, 531–536):
normalize the filename, look it up in the alias table (upper-cased on a
hit), else strip `.xlsx` and the `fs<year>` stem, upper-case, with the
hardcoded Beechgrove exception. -/
def resolve_site (year : ℕ) (filename : String) : String :=
  let nf := normalize_filename filename
  match (filename_to_header year).find? (fun p => p.1 = nf) with
  | some p => upperStr p.2
  | Option.none =>
      let site := upperStr (replaceAll ("fs" ++ toString year) "" (replaceAll ".xlsx" "" nf))
      if site = "BEECHGROVE" then "SCARBOROUGH" else site

/-- Strip a leading run of digits and whitespace, the regex
`re.sub(r'^[\d\s]+', '', s)` of line 542. -/
def stripLeadDigitsWs (s : String) : String :=
  String.mk (s.data.dropWhile (fun c => c.isDigit || pyIsSpace c))

/-- The header-column scan of `process_one_file_ytd` (lines 538–546):
first column whose trimmed upper-cased header equals the site name
verbatim or after stripping leading digits/whitespace. -/
def findTargetCol (master : ISheet) (headerRow : ℕ) (site : String) : Option ℕ :=
  (List.range' 1 master.maxCol).find? (fun c =>
    let up := upperStr (stripS (cellStr master headerRow c))
    up = site || stripLeadDigitsWs up = site)

/-- Halve every value of a map (the Weston rule, lines 552–555). -/
def mapHalf (d : Acc) : Acc := d.map (fun p => (p.1, p.2 / 2))

/-- The YTD pass over one source file, `process_one_file_ytd`
(lines 514–560), starting from the already-loaded income worksheet (the
workbook I/O and the income-sheet lookup are the external spreadsheet
capability).  `Option.none` covers the script's skip paths (no anchors,
no matching header column) and the caught per-file exception of a failed
parse; on success the writes of the three `match_and_write` calls are
returned in order. -/
def process_one_file_ytd (year : ℕ) (filename : String) (src master : ISheet)
    (headerRow threshold : ℕ) (scorer : String → String → ℕ) :
    Option (List (ℕ × Act)) :=
  match parse_income_sheet_ytd src with
  | Except.error _ => Option.none
  | Except.ok (rev, exp, inc) =>
      if rev.isEmpty && exp.isEmpty && inc.isEmpty then Option.none
      else
        let site := resolve_site year filename
        match findTargetCol master headerRow site with
        | Option.none => Option.none
        | some _ =>
            let rev2 := if containsSub "WESTON" site then mapHalf rev else rev
            let exp2 := if containsSub "WESTON" site then mapHalf exp else exp
            let inc2 := if containsSub "WESTON" site then mapHalf inc else inc
            some (match_and_write master 6 16 rev2 threshold scorer ++
                  match_and_write master 19 33 exp2 threshold scorer ++
                  match_and_write master 38 46 inc2 threshold scorer)

/-- A value written into the consolidated balance sheet: a number, or the
Excel formula string composed at line 940 as an equals sign, an open
parenthesis, the amount, and the closing text `)/2` (modelled
structurally; the formula evaluates to half the amount, but the cell value
written is the formula text, not a number). -/
inductive BSWrite where
  | num (q : ℚ)
  | halfFormula (q : ℚ)
deriving DecidableEq, Repr

/-- The balance-sheet write value of `process_all_files` (lines 939–942):
the `207 Weston` entity gets the halving formula, every other entity the
plain amount. -/
def balance_cell_value (entity : String) (amount : ℚ) : BSWrite :=
  if entity = "207 Weston" then BSWrite.halfFormula amount else BSWrite.num amount

/-- A pandas-shaped grid read with `header=None`: zero-based rows and
columns; cells outside the populated area are empty. -/
structure Grid where
  nrows : ℕ
  ncols : ℕ
  cell : ℕ → ℕ → Cell

/-- Value of an unsigned digit run. -/
def digitsToNat (l : List Char) : ℕ :=
  l.foldl (fun a c => a * 10 + (c.toNat - 48)) 0

/-- Numeric parse of a text cell, `pd.to_numeric(..., errors='coerce')`
restricted to plain decimal literals (optional sign, integer part,
optional fraction), which covers the numeric strings these sheets hold;
anything else coerces to NaN (`Option.none`). -/
def parseDec (s : String) : Option ℚ :=
  let l := stripChars s.data
  let sg : ℚ × List Char :=
    match l with
    | '-' :: r => (-1, r)
    | '+' :: r => (1, r)
    | r => (1, r)
  let ip := sg.2.takeWhile Char.isDigit
  let rest := sg.2.dropWhile Char.isDigit
  match rest with
  | '.' :: fr =>
      let fp := fr.takeWhile Char.isDigit
      if fr.dropWhile Char.isDigit = [] ∧ (ip ≠ [] ∨ fp ≠ []) then
        some (sg.1 * ((digitsToNat ip : ℚ) + (digitsToNat fp : ℚ) / (10 : ℚ) ^ fp.length))
      else Option.none
  | [] => if ip ≠ [] then some (sg.1 * (digitsToNat ip : ℚ)) else Option.none
  | _ => Option.none

/-- `pd.to_numeric(x, errors='coerce')` on a single cell: a number stands,
an empty cell is NaN, text is parsed or coerced to NaN. -/
def toNumC (c : Cell) : Option ℚ :=
  match c with
  | Cell.num q => some q
  | Cell.blank => Option.none
  | Cell.txt s => parseDec s

/-- Lookup with Python-dict overwrite semantics on a raw binding list:
the value of the last binding of the key. -/
def lookupLast (l : List (Cell × ℕ)) (k : Cell) : Option ℕ :=
  l.foldl (fun acc p => if p.1 = k then some p.2 else acc) Option.none

/-- The budget header row (line 965): first row with column 0 equal to the
configured year and column 2 equal to `Jan`. -/
def budgetHdr (g : Grid) (year : ℕ) : Option ℕ :=
  (List.range g.nrows).find?
    (fun r => g.cell r 0 = Cell.num (year : ℚ) && g.cell r 2 = Cell.txt "Jan")

/-- The twelve month labels, `df.iloc[hdr, 2:14]` (line 966); the iloc
slice is clipped to the grid's real width. -/
def budgetMonths (g : Grid) (hdr : ℕ) : List Cell :=
  ((List.range' 2 12).filter (fun c => c < g.ncols)).map (fun c => g.cell hdr c)

/-- `month_to_col` (line 967): months zipped with columns 2–13, with
dict-overwrite lookup. -/
def monthCols (g : Grid) (hdr : ℕ) : List (Cell × ℕ) :=
  (budgetMonths g hdr).zip (List.range' 2 12)

/-- The selected month's column, `month_to_col[selected_month]`
(line 969). -/
def budgetSelCol (g : Grid) (year : ℕ) (month : String) : Option ℕ := do
  let hdr ← budgetHdr g year
  lookupLast (monthCols g hdr) (Cell.txt month)

/-- First budget row labeled `Rental Revenue` (line 971). -/
def budgetStart (g : Grid) : Option ℕ :=
  (List.range g.nrows).find? (fun r => g.cell r 0 = Cell.txt "Rental Revenue")

/-- The end label (lines 972–974): `NET PROFIT/(LOSS)` if present
anywhere in column 0, else `NET RENTAL INCOME (LOSS)`. -/
def budgetEndLbl (g : Grid) : String :=
  if (List.range g.nrows).any (fun r => g.cell r 0 = Cell.txt "NET PROFIT/(LOSS)") then
    "NET PROFIT/(LOSS)"
  else "NET RENTAL INCOME (LOSS)"

/-- One past the end-label row (line 975). -/
def budgetEnd (g : Grid) : Option ℕ :=
  ((List.range g.nrows).find? (fun r => g.cell r 0 = Cell.txt (budgetEndLbl g))).map
    (fun r => r + 1)

/-- The annualized-total column (line 977): one past the column of the
last month label. -/
def budgetTotalCol (g : Grid) (year : ℕ) : Option ℕ := do
  let hdr ← budgetHdr g year
  let lastM ← (budgetMonths g hdr).getLast?
  let c ← lookupLast (monthCols g hdr) lastM
  pure (c + 1)

/-- The YTD sum of line 984: numeric sum of columns 2 through the selected
column inclusive, non-numeric cells skipped (`skipna`). -/
def ytdSum (g : Grid) (r selCol : ℕ) : ℚ :=
  (List.range' 2 (selCol + 1 - 2)).foldl
    (fun acc c =>
      match toNumC (g.cell r c) with
      | some q => acc + q
      | Option.none => acc)
    0

/-- A budget row's extracted triple (lines 983–986): month value, YTD sum,
annual value; NaN results are `Option.none`. -/
abbrev BTriple := Option ℚ × ℚ × Option ℚ

def budgetTriple (g : Grid) (selCol totalCol r : ℕ) : BTriple :=
  (toNumC (g.cell r selCol), ytdSum g r selCol, toNumC (g.cell r totalCol))

/-- One row of the budget extraction loop (lines 980–986): rows whose
column-0 cell is text record their triple under the stripped label. -/
def budgetStep (g : Grid) (selCol totalCol : ℕ) (res : List (String × BTriple)) (r : ℕ) :
    List (String × BTriple) :=
  match g.cell r 0 with
  | Cell.txt s => aSet res (stripS s) (budgetTriple g selCol totalCol r)
  | _ => res

/-- The budget extraction (lines 965–986): the `results` dict right after
the row loop, before the post-hoc pair merges and the
amortization/depreciation injection. -/
def budget_results (g : Grid) (year : ℕ) (month : String) :
    Option (List (String × BTriple)) := do
  let selCol ← budgetSelCol g year month
  let start ← budgetStart g
  let endRow ← budgetEnd g
  let totalCol ← budgetTotalCol g year
  pure ((List.range' start (endRow - start)).foldl (budgetStep g selCol totalCol) [])

def aRemove {α : Type} (d : List (String × α)) (k : String) : List (String × α) :=
  d.filter (fun p => p.1 ≠ k)

/-- NaN-propagating addition of possibly-NaN floats. -/
def addOpt (a b : Option ℚ) : Option ℚ :=
  match a, b with
  | some x, some y => some (x + y)
  | _, _ => Option.none

/-- One fixed-pair merge of the budget results (lines 989–997): when both
labels are present, pop both and record their component-wise sum under the
first label. -/
def mergeBudgetPair (d : List (String × BTriple)) (k1 k2 : String) :
    List (String × BTriple) :=
  if aHas d k1 && aHas d k2 then
    match aGet? d k1, aGet? d k2 with
    | some t1, some t2 =>
        aSet (aRemove (aRemove d k1) k2) k1
          (addOpt t1.1 t2.1, t1.2.1 + t2.2.1, addOpt t1.2.2 t2.2.2)
    | _, _ => d
  else d

/-- Index of the selected month in the month list (Python
`months.index`). -/
def monthIndex (months : List Cell) (month : String) : ℕ :=
  ((months.indexOf (Cell.txt month)))

/-- The budget results after the two fixed-pair merges and the injected
amortization/depreciation constants (lines 989–1001). -/
def budget_final (g : Grid) (year : ℕ) (month : String) :
    Option (List (String × BTriple)) := do
  let res ← budget_results g year month
  let hdr ← budgetHdr g year
  let res := mergeBudgetPair res "Mortgage /Loan Interest" "Loan Interest (CSIT to Family Mortgage)"
  let res := mergeBudgetPair res "CP Rail Lease (Laird)" "Rent PUD/CSITPM Head Office"
  let mc : ℚ := (monthIndex (budgetMonths g hdr) month : ℚ) + 1
  let res := aSet res "Amortization" (some 26500, 26500 * mc, some (26500 * 12))
  let res := aSet res "Depreciation" (some 121963, 121963 * mc, some (121963 * 12))
  pure res

/-- The named stage executing when a fatal error is raised; the outer
handler of `process_all_files` reports it with the failure.  The single
constructor models the stage string set at line 1007, literally
`Processing last year` + an apostrophe + `s income statement`. -/
inductive Stage where
  | lastYearIncome
deriving DecidableEq, Repr

/-- Column-0 texts of the prior-year sheet,
`df_last[0].dropna().astype(str).tolist()` (line 1021); numeric labels,
which would be stringified, are outside the modelled label domain. -/
def col0Txt (g : Grid) : List String :=
  (List.range g.nrows).filterMap (fun r =>
    match g.cell r 0 with
    | Cell.txt s => some s
    | _ => Option.none)

/-- End-label selection of the prior-year pass (lines 1028–1032):
`NET PROFIT/(LOSS)` at fuzzy confidence ≥ 95, else
`NET RENTAL INCOME (LOSS)` at ≥ 95, else the fatal stage error. -/
def endLabelPick (scorer : String → String → ℕ) (col0 : List String) :
    Except Stage String :=
  match extractOne scorer "NET PROFIT/(LOSS)" col0 with
  | Option.none => Except.error Stage.lastYearIncome
  | some p1 =>
      if p1.2 < 95 then
        match extractOne scorer "NET RENTAL INCOME (LOSS)" col0 with
        | Option.none => Except.error Stage.lastYearIncome
        | some p2 =>
            if p2.2 < 95 then Except.error Stage.lastYearIncome else Except.ok p2.1
      else Except.ok p1.1

/-- A prior-year row's (month, YTD) pair, columns 1 and 7
(lines 1039–1040). -/
abbrev LYRow := Option ℚ × Option ℚ

/-- One row of the prior-year extraction loop (lines 1036–1041). -/
def lyStep (g : Grid) (res : List (String × LYRow)) (r : ℕ) : List (String × LYRow) :=
  match g.cell r 0 with
  | Cell.txt s => aSet res (stripS s) (toNumC (g.cell r 1), toNumC (g.cell r 7))
  | _ => res

/-- The two fixed-pair merges of the prior-year results
(lines 1043–1050). -/
def mergeLYPair (d : List (String × LYRow)) (k1 k2 : String) : List (String × LYRow) :=
  if aHas d k1 && aHas d k2 then
    match aGet? d k1, aGet? d k2 with
    | some t1, some t2 =>
        aSet (aRemove (aRemove d k1) k2) k1 (addOpt t1.1 t2.1, addOpt t1.2 t2.2)
    | _, _ => d
  else d

/-- The prior-year income-statement pass (lines 1021–1050): fuzzy-locate
the `RENTAL INCOME` start row and the end row at confidence ≥ 95 (a miss
is the fatal stage error: the script raises `ValueError`, or unpacks
`None` when there are no candidates, and the outer handler reports the
stage), then extract the (month, YTD) pairs of the labeled run and apply
the fixed-pair merges. -/
def last_year_income (g : Grid) (scorer : String → String → ℕ) :
    Except Stage (List (String × LYRow)) :=
  match extractOne scorer "RENTAL INCOME" (col0Txt g) with
  | Option.none => Except.error Stage.lastYearIncome
  | some p =>
      if p.2 < 95 then Except.error Stage.lastYearIncome
      else
        match (List.range g.nrows).find? (fun r => g.cell r 0 = Cell.txt p.1) with
        | Option.none => Except.error Stage.lastYearIncome
        | some startLast =>
            match endLabelPick scorer (col0Txt g) with
            | Except.error st => Except.error st
            | Except.ok el =>
                match (List.range g.nrows).find? (fun r => g.cell r 0 = Cell.txt el) with
                | Option.none => Except.error Stage.lastYearIncome
                | some e0 =>
                    let raw := (List.range' startLast (e0 + 1 - startLast)).foldl
                      (lyStep g) []
                    let raw := mergeLYPair raw "Mortgage /Loan Interest"
                      "Loan Interest (CSIT to Family Mortgage)"
                    Except.ok (mergeLYPair raw "CP Rail Lease (Laird)"
                      "Rent PUD/CSITPM Head Office")

/-- A balance-sheet section as sliced by `parse_section` (line 696): the
rows strictly between the start-label row and the total row, each row the
list of its cells (column 0 first). -/
abbrev Section := List (List Cell)

/-- Cell of a section at zero-based (row, col); missing cells are NaN. -/
def secCell (sec : Section) (i j : ℕ) : Cell :=
  ((sec.get? i).bind (fun row => row.get? j)).getD Cell.blank

/-- The numeric values of a row's non-label columns (1 to `ncols`-1), in
column order: `isinstance(x, (int, float)) and not pd.isna(x)`
(lines 718–722). -/
def rowNums (sec : Section) (ncols i : ℕ) : List ℚ :=
  (List.range' 1 (ncols - 1)).filterMap (fun c =>
    match secCell sec i c with
    | Cell.num q => some q
    | _ => Option.none)

def isNumCell (c : Cell) : Bool :=
  match c with
  | Cell.num _ => true
  | _ => false

/-- The sum column (lines 698–704): first non-label column holding at
least one numeric value anywhere in the section, defaulting to 1. -/
def findSumCol (sec : Section) (ncols : ℕ) : ℕ :=
  match (List.range' 1 (ncols - 1)).find?
      (fun c => (List.range sec.length).any (fun i => isNumCell (secCell sec i c))) with
  | some c => c
  | Option.none => 1

/-- Does any not-NaN cell of row `j`, stringified and concatenated,
contain a digit (lines 752–754)?  A numeric cell always stringifies with
a digit; a text cell contributes its own digits. -/
def rowHasDigit (sec : Section) (ncols j : ℕ) : Bool :=
  (List.range ncols).any (fun c =>
    match secCell sec j c with
    | Cell.num _ => true
    | Cell.txt s => s.data.any Char.isDigit
    | Cell.blank => false)

def isStrCell (c : Cell) : Bool :=
  match c with
  | Cell.txt _ => true
  | _ => false

/-- The group-header accumulation loop of `parse_section` (lines 747–758):
starting at `j`, stop at the first row with a string label containing no
digit anywhere in its concatenated text; otherwise add the sum-column
value when numeric and advance.  Returns the running total and the final
inner index `j`; the fuel counts the rows left below `n` so running out is
the `j < n` condition failing. -/
def groupGo (sec : Section) (ncols sumCol : ℕ) : ℕ → ℕ → ℚ → ℚ × ℕ
  | 0, j, t => (t, j)
  | fuel + 1, j, t =>
      if isStrCell (secCell sec j 0) && !(rowHasDigit sec ncols j) then (t, j)
      else
        let t2 :=
          match secCell sec j sumCol with
          | Cell.num q => t + q
          | _ => t
        groupGo sec ncols sumCol fuel (j + 1) t2

/-- `result.setdefault("ACCOUNTS RECEIVABLE", 0.0)` (lines 726, 732). -/
def aSetDefault (d : List (String × ℚ)) (k : String) : List (String × ℚ) :=
  if aHas d k then d else d ++ [(k, 0)]

/-- One iteration of the row-classification loop of `parse_section`
(lines 709–760): classify the row at cursor `i`, update the result map,
and return the next cursor.  The group-header branch consumes the rows up
to `groupGo`'s stopping index `j`. -/
def parseStep (sec : Section) (ncols sumCol : ℕ) (res : List (String × ℚ)) (i : ℕ) :
    List (String × ℚ) × ℕ :=
  match secCell sec i 0 with
  | Cell.txt s =>
      let header := stripS s
      let hUp := upperStr header
      if frontMatches "ACCOUNTS RECEIVABLE".data hUp.data && !(hUp = "ACCOUNTS RECEIVABLE") then
        let nums := rowNums sec ncols i
        if nums.isEmpty then (res, i + 1)
        else
          let nz := nums.filter (fun q => q ≠ 0)
          let v := (nz.getLast?).getD 0
          (aSet (aSetDefault res "ACCOUNTS RECEIVABLE") "ACCOUNTS RECEIVABLE"
            (dGet (aSetDefault res "ACCOUNTS RECEIVABLE") "ACCOUNTS RECEIVABLE" + v), i + 1)
      else if hUp = "ACCOUNTS RECEIVABLE" then (aSetDefault res "ACCOUNTS RECEIVABLE", i + 1)
      else
        match ((rowNums sec ncols i).filter (fun q => q ≠ 0)).getLast? with
        | some v => (aSet res header v, i + 1)
        | Option.none =>
            let g := groupGo sec ncols sumCol (sec.length - (i + 1)) (i + 1) 0
            (aSet res header g.1, g.2)
  | _ => (res, i + 1)

/-- The row-classification loop of `parse_section`; the fuel bounds the
iteration count (the cursor strictly advances, so `sec.length` iterations
always suffice). -/
def parseLoop (sec : Section) (ncols sumCol : ℕ) : ℕ → ℕ → List (String × ℚ) →
    List (String × ℚ)
  | 0, _, res => res
  | fuel + 1, i, res =>
      if i < sec.length then
        let st := parseStep sec ncols sumCol res i
        parseLoop sec ncols sumCol fuel st.2 st.1
      else res

/-- Case-insensitive substring containment (pandas `str.contains` with
`case=False`). -/
def containsSubCI (pat s : String) : Bool :=
  containsSub (lowerStr pat) (lowerStr s)

/-- `parse_section` over a full balance-sheet grid (lines 680–765): locate
the first row equal to the start label and the first row anywhere whose
column-0 text contains the total label case-insensitively, slice the
exclusive range between them, and run the classification loop; a missing
marker yields the empty map (the script logs a warning). -/
def parse_section (g : Grid) (startLabel totalLabel : String) : List (String × ℚ) :=
  match (List.range g.nrows).find? (fun r => g.cell r 0 = Cell.txt startLabel) with
  | Option.none => []
  | some startIdx =>
      match (List.range g.nrows).find? (fun r =>
          match g.cell r 0 with
          | Cell.txt s => containsSubCI totalLabel s
          | _ => false) with
      | Option.none => []
      | some endIdx =>
          let sec : Section := (List.range' (startIdx + 1) (endIdx - (startIdx + 1))).map
            (fun r => (List.range g.ncols).map (fun c => g.cell r c))
          parseLoop sec g.ncols (findSumCol sec g.ncols) sec.length 0 []

/-! Spec-side restatements used to express the claims (these follow the
wording of the specification; the theorems compare them with the embedded
source functions above). -/

/-- A band row that is neither blank nor the band's total sentinel
(the claim's non-skipped rows). -/
def bandKeep (s : ISheet) (skipPhrase : String) (r : ℕ) : Bool :=
  !(s.label r == "") && !(containsWordCI skipPhrase (s.label r))

/-- The non-skipped rows of a bounded band whose normalized label is
`k`. -/
def bandRows (s : ISheet) (skipPhrase : String) (lo hi : ℕ) (k : String) : List ℕ :=
  (List.range' lo (hi + 1 - lo)).filter
    (fun r => bandKeep s skipPhrase r && normalize_label (s.label r) == k)

/-- The claim's accumulated value for key `k` over a bounded band: the sum
of the value-column cells of its non-skipped rows with that normalized
label. -/
def bandSum (s : ISheet) (col : ℕ) (skipPhrase : String) (lo hi : ℕ) (k : String) : ℚ :=
  ((bandRows s skipPhrase lo hi k).map (fun r => cellNum (cellAt s r col))).sum

/-- The rows the income band visits: from `lo`, up to `fuel` rows, cut at
the first stopping row. -/
def incomeRows (s : ISheet) (lo fuel : ℕ) : List ℕ :=
  (List.range' lo fuel).takeWhile (fun r => !(incomeStop s r))

/-- The claim's accumulated value for key `k` over the income band. -/
def incomeSum (s : ISheet) (col lo fuel : ℕ) (k : String) : ℚ :=
  (((incomeRows s lo fuel).filter (fun r => normalize_label (s.label r) == k)).map
    (fun r => cellNum (cellAt s r col))).sum

/-- Is a write action halved with respect to the given parsed maps: zero,
or half of some parsed value (the claim's Weston halving). -/
def halvedIn (rv ex ic : Acc) : ℕ × Act → Bool
  | (_, Act.skip) => true
  | (_, Act.write v _) => v == 0 || (rv ++ ex ++ ic).any (fun p => v == p.2 / 2)

/-- Does the column-0 cell of grid row `r` hold text whose stripped form
is `k`? -/
def cellKeyIs (g : Grid) (r : ℕ) (k : String) : Bool :=
  match g.cell r 0 with
  | Cell.txt s => stripS s == k
  | _ => false

/-! Concrete fixtures for the counterexamples and witnesses. -/

/-- A sheet whose whole-line section headers appear in the order
Expenses, Revenue, Income. -/
def sheetOutOfOrder : ISheet where
  maxRow := 3
  maxCol := 1
  label := fun r => if r = 1 then "Expenses" else if r = 2 then "Revenue" else
    if r = 3 then "Income" else ""
  cellv := fun _ _ => Cell.blank

/-- A sheet with a primary Revenue header and fallback-only Expenses and
Income anchors. -/
def sheetFallback : ISheet where
  maxRow := 4
  maxCol := 1
  label := fun r => if r = 1 then "Revenue" else if r = 2 then "Rental Income" else
    if r = 3 then "Advertising" else if r = 4 then "Management Fee" else ""
  cellv := fun _ _ => Cell.blank

/-- A source income sheet whose revenue band holds a non-empty text value
in the value column (the crash input of the parse claim). -/
def sheetTextValue : ISheet where
  maxRow := 6
  maxCol := 8
  label := fun r => if r = 1 then "Revenue" else if r = 2 then "Rental Income" else
    if r = 3 then "Expenses" else if r = 4 then "Advertising" else
    if r = 5 then "Income" else if r = 6 then "Management Fee" else ""
  cellv := fun r _ => if r = 2 then Cell.txt "N/A" else Cell.blank

/-- A well-formed numeric source income sheet. -/
def sheetNumeric : ISheet where
  maxRow := 6
  maxCol := 8
  label := fun r => if r = 1 then "Revenue" else if r = 2 then "Industrial Rent" else
    if r = 3 then "Expenses" else if r = 4 then "Advertising" else
    if r = 5 then "Income" else if r = 6 then "Management Fee" else ""
  cellv := fun r _ => Cell.num (if r = 2 then 1000 else if r = 4 then 200 else
    if r = 6 then 50 else 0)

/-- A master template slice: header row 5 carries the Weston site header
in column 2; rows 6, 19 and 38 carry the template labels of the three
bands. -/
def masterWeston : ISheet where
  maxRow := 46
  maxCol := 2
  label := fun r => if r = 6 then "Rental Income" else if r = 19 then "Advertising" else
    if r = 38 then "Management fee" else ""
  cellv := fun r c => if r = 5 && c = 2 then Cell.txt "207 WESTON" else Cell.blank

/-- A template slice whose row 6 is labeled `Subtotal` (the word `total`
appears only as part of a larger word). -/
def masterSubtotal : ISheet where
  maxRow := 6
  maxCol := 1
  label := fun r => if r = 6 then "Subtotal" else ""
  cellv := fun _ _ => Cell.blank

/-- A template slice whose row 6 is labeled `Total Revenue` and row 7
`Rent Revenue` (a fuzzy-match target). -/
def masterFuzzy : ISheet where
  maxRow := 7
  maxCol := 1
  label := fun r => if r = 6 then "Total Revenue" else if r = 7 then "Rent Revenue" else ""
  cellv := fun _ _ => Cell.blank

/-- A budget grid: header row 0 (year and the twelve months in columns
2–13), a `Rental Revenue` data row, and the end-label row. -/
def budgetGrid : Grid where
  nrows := 3
  ncols := 15
  cell := fun r c =>
    if r = 0 then
      if c = 0 then Cell.num 2025
      else if c = 2 then Cell.txt "Jan" else if c = 3 then Cell.txt "Feb"
      else if c = 4 then Cell.txt "Mar" else if c = 5 then Cell.txt "Apr"
      else if c = 6 then Cell.txt "May" else if c = 7 then Cell.txt "Jun"
      else if c = 8 then Cell.txt "Jul" else if c = 9 then Cell.txt "Aug"
      else if c = 10 then Cell.txt "Sep" else if c = 11 then Cell.txt "Oct"
      else if c = 12 then Cell.txt "Nov" else if c = 13 then Cell.txt "Dec"
      else Cell.blank
    else if r = 1 then
      if c = 0 then Cell.txt "Rental Revenue"
      else if 2 ≤ c ∧ c ≤ 13 then Cell.num 10
      else if c = 14 then Cell.num 120
      else Cell.blank
    else if r = 2 then
      if c = 0 then Cell.txt "NET PROFIT/(LOSS)" else Cell.blank
    else Cell.blank

/-- A prior-year income grid whose column-0 labels are nowhere near the
required sentinels. -/
def lastYearGrid : Grid where
  nrows := 2
  ncols := 8
  cell := fun r c =>
    if r = 0 ∧ c = 0 then Cell.txt "SOMETHING ELSE"
    else if r = 1 ∧ c = 0 then Cell.txt "ANOTHER ROW" else Cell.blank

/-- A one-group balance-sheet section: a group header without numbers
followed by two numberless-label rows with sum-column values. -/
def sectionGroup : Section :=
  [[Cell.txt "CASH", Cell.num 5],
   [Cell.blank, Cell.num 7],
   [Cell.blank, Cell.num 9],
   [Cell.txt "ITEM 2", Cell.num 3]]

/-- The writes the YTD pass produces on the Weston fixture. -/
def westonWrites : List (ℕ × Act) :=
  (process_one_file_ytd 2025 "fs2025Weston.xlsx" sheetNumeric masterWeston 5 85
    (fun _ _ => 0)).getD []

/-! Helper lemmas about the dict model, the fuzzy selection, and the
accumulation folds. -/

theorem aGet?_aSet_same {α : Type} (d : List (String × α)) (k : String) (v : α) :
    aGet? (aSet d k v) k = some v := by
  induction d with
  | nil =>
      simp only [aSet, aGet?]
      rw [List.find?_cons_of_pos _ (by simp)]
      rfl
  | cons p rest ih =>
      by_cases hp : p.1 = k
      · simp only [aSet, if_pos hp, aGet?]
        rw [List.find?_cons_of_pos _ (by simp)]
        rfl
      · simp only [aSet, if_neg hp, aGet?] at ih ⊢
        rw [List.find?_cons_of_neg _ (by simp [hp])]
        exact ih

theorem aGet?_aSet_ne {α : Type} (d : List (String × α)) (k k' : String) (v : α)
    (h : k' ≠ k) : aGet? (aSet d k v) k' = aGet? d k' := by
  induction d with
  | nil =>
      simp only [aSet, aGet?]
      rw [List.find?_cons_of_neg _ (by simp; exact fun hk => h hk.symm)]
  | cons p rest ih =>
      by_cases hp : p.1 = k
      · have hp' : ¬ (p.1 = k') := fun hk => h (hk.symm.trans hp)
        simp only [aSet, if_pos hp, aGet?]
        rw [List.find?_cons_of_neg _ (by simp; exact fun hk => h hk.symm),
          List.find?_cons_of_neg _ (by simp [hp'])]
      · by_cases hp' : p.1 = k'
        · simp only [aSet, if_neg hp, aGet?]
          rw [List.find?_cons_of_pos _ (by simp [hp']),
            List.find?_cons_of_pos _ (by simp [hp'])]
        · simp only [aSet, if_neg hp, aGet?] at ih ⊢
          rw [List.find?_cons_of_neg _ (by simp [hp']),
            List.find?_cons_of_neg _ (by simp [hp'])]
          exact ih

theorem dGet_aSet_same (d : Acc) (k : String) (v : ℚ) : dGet (aSet d k v) k = v := by
  simp [dGet, aGet?_aSet_same]

theorem dGet_aSet_ne (d : Acc) (k k' : String) (v : ℚ) (h : k' ≠ k) :
    dGet (aSet d k v) k' = dGet d k' := by
  simp [dGet, aGet?_aSet_ne d k k' v h]

/-- The candidate returned by `extractOne` is one of the candidates. -/
theorem extractOne_mem (scorer : String → String → ℕ) (q : String) :
    ∀ (cands : List String) (init : Option (String × ℕ)) (bm : String) (bs : ℕ),
      cands.foldl
        (fun best c =>
          match best with
          | Option.none => some (c, scorer q c)
          | some (bm0, bs0) =>
              if scorer q c > bs0 then some (c, scorer q c) else some (bm0, bs0))
        init = some (bm, bs) →
      bm ∈ cands ∨ init = some (bm, bs) := by
  intro cands
  induction cands with
  | nil => intro init bm bs h; exact Or.inr h
  | cons c rest ih =>
      intro init bm bs h
      rcases ih _ bm bs h with h2 | h2
      · exact Or.inl (List.mem_cons_of_mem _ h2)
      · rcases init with _ | ⟨bm0, bs0⟩
        · simp at h2
          exact Or.inl (h2.1 ▸ List.mem_cons_self _ _)
        · by_cases hgt : scorer q c > bs0
          · simp [hgt] at h2
            exact Or.inl (h2.1 ▸ List.mem_cons_self _ _)
          · simp [hgt] at h2
            exact Or.inr (by simp [h2.1, h2.2])

theorem extractOne_mem' (scorer : String → String → ℕ) (q : String) (cands : List String)
    (bm : String) (bs : ℕ) (h : extractOne scorer q cands = some (bm, bs)) : bm ∈ cands := by
  rcases extractOne_mem scorer q cands Option.none bm bs h with h2 | h2
  · exact h2
  · simp at h2

/-- A present key's `dGet` value is the value of an entry of the list. -/
theorem dGet_mem_of_aHas (d : Acc) (k : String) (h : aHas d k = true) :
    ∃ p, p ∈ d ∧ p.1 = k ∧ dGet d k = p.2 := by
  induction d with
  | nil => simp [aHas] at h
  | cons p rest ih =>
      by_cases hp : p.1 = k
      · exact ⟨p, List.mem_cons_self _ _, hp, by simp [dGet, aGet?, List.find?_cons, hp]⟩
      · have h2 : aHas rest k = true := by simpa [aHas, List.any_cons, hp] using h
        rcases ih h2 with ⟨p2, hmem, hk, hv⟩
        exact ⟨p2, List.mem_cons_of_mem _ hmem, hk,
          by simpa [dGet, aGet?, List.find?_cons, hp] using hv⟩

theorem aHas_of_mem_keys (d : Acc) (k : String) (h : k ∈ d.map (fun p => p.1)) :
    aHas d k = true := by
  rcases List.mem_map.mp h with ⟨p, hmem, hk⟩
  exact List.any_eq_true.mpr ⟨p, hmem, by simp [hk]⟩

theorem dGet_mapHalf (d : Acc) (k : String) : dGet (mapHalf d) k = dGet d k / 2 := by
  induction d with
  | nil => simp [mapHalf, dGet, aGet?, List.find?]
  | cons p rest ih =>
      by_cases hp : p.1 = k
      · simp [mapHalf, dGet, aGet?, List.find?_cons, hp]
      · simpa [mapHalf, dGet, aGet?, List.find?_cons, hp] using ih

theorem aHas_mapHalf (d : Acc) (k : String) : aHas (mapHalf d) k = aHas d k := by
  simp [mapHalf, aHas, List.any_map]
  rfl

theorem readVal_ok_eq (c : Cell) (q : ℚ) (h : readVal c = Except.ok q) : q = cellNum c := by
  cases c with
  | blank => simpa [readVal, cellNum] using h.symm
  | num x => simpa [readVal, cellNum] using h.symm
  | txt t =>
      by_cases ht : t = ""
      · simpa [readVal, cellNum, ht] using h.symm
      · simp [readVal, ht] at h

/-- The accumulation invariant of a bounded band loop: when every value
cell read succeeds, the fold succeeds and each key's final value is its
initial value plus the sum of the value cells of the non-skipped rows
carrying that normalized label. -/
theorem bandFold_spec (s : ISheet) (col : ℕ) (skipPhrase : String) :
    ∀ (rows : List ℕ) (d0 : Acc),
      (∀ r ∈ rows, ∃ q, readVal (cellAt s r col) = Except.ok q) →
      ∃ d, rows.foldl (bandStep s col skipPhrase) (Except.ok d0) = Except.ok d ∧
        ∀ k, dGet d k = dGet d0 k +
          ((rows.filter (fun r => bandKeep s skipPhrase r &&
              (normalize_label (s.label r) == k))).map
            (fun r => cellNum (cellAt s r col))).sum := by
  intro rows
  induction rows with
  | nil => intro d0 _; exact ⟨d0, rfl, by simp⟩
  | cons r rest ih =>
      intro d0 hok
      by_cases h1 : s.label r = ""
      · have hstep : bandStep s col skipPhrase (Except.ok d0) r = Except.ok d0 := by
          simp [bandStep, h1]
        rcases ih d0 (fun r' hr' => hok r' (List.mem_cons_of_mem _ hr')) with ⟨d, hd, hsum⟩
        refine ⟨d, by simpa [List.foldl_cons, hstep] using hd, fun k => ?_⟩
        have hkeep : bandKeep s skipPhrase r = false := by simp [bandKeep, h1]
        simpa [List.filter_cons, hkeep] using hsum k
      · by_cases h2 : containsWordCI skipPhrase (s.label r) = true
        · have hstep : bandStep s col skipPhrase (Except.ok d0) r = Except.ok d0 := by
            simp [bandStep, h1, h2]
          rcases ih d0 (fun r' hr' => hok r' (List.mem_cons_of_mem _ hr')) with ⟨d, hd, hsum⟩
          refine ⟨d, by simpa [List.foldl_cons, hstep] using hd, fun k => ?_⟩
          have hkeep : bandKeep s skipPhrase r = false := by simp [bandKeep, h2]
          simpa [List.filter_cons, hkeep] using hsum k
        · rcases hok r (List.mem_cons_self _ _) with ⟨q, hq⟩
          have hstep : bandStep s col skipPhrase (Except.ok d0) r =
              Except.ok (aSet d0 (normalize_label (s.label r))
                (dGet d0 (normalize_label (s.label r)) + q)) := by
            simp [bandStep, h1, h2, hq]
          rcases ih (aSet d0 (normalize_label (s.label r))
              (dGet d0 (normalize_label (s.label r)) + q))
              (fun r' hr' => hok r' (List.mem_cons_of_mem _ hr')) with ⟨d, hd, hsum⟩
          refine ⟨d, by simpa [List.foldl_cons, hstep] using hd, fun k => ?_⟩
          have hkeep : bandKeep s skipPhrase r = true := by simp [bandKeep, h1, h2]
          have hq2 : q = cellNum (cellAt s r col) := readVal_ok_eq _ _ hq
          by_cases hk : normalize_label (s.label r) = k
          · have hthis := hsum k
            rw [hk, dGet_aSet_same d0 k (dGet d0 k + q)] at hthis
            have hbk : (normalize_label (s.label r) == k) = true := by simp [hk]
            simp only [List.filter_cons, hkeep, hbk, Bool.and_self, if_true,
              List.map_cons, List.sum_cons, Bool.true_and]
            rw [hthis, hq2]
            ring
          · have hthis := hsum k
            rw [dGet_aSet_ne d0 _ k _ (fun hne => hk hne.symm)] at hthis
            have hbk : (normalize_label (s.label r) == k) = false := by
              simp [hk]
            simpa [List.filter_cons, hkeep, hbk] using hthis

/-- The accumulation invariant of the income band's while loop. -/
theorem incomeFold_spec (s : ISheet) (col : ℕ) :
    ∀ (fuel lo : ℕ) (d0 : Acc),
      (∀ r, ∃ q, readVal (cellAt s r col) = Except.ok q) →
      ∃ d, incomeGo s col fuel lo d0 = Except.ok d ∧
        ∀ k, dGet d k = dGet d0 k +
          (((incomeRows s lo fuel).filter
              (fun r => normalize_label (s.label r) == k)).map
            (fun r => cellNum (cellAt s r col))).sum := by
  intro fuel
  induction fuel with
  | zero => intro lo d0 _; exact ⟨d0, rfl, by simp [incomeRows]⟩
  | succ fuel ih =>
      intro lo d0 hok
      by_cases hstop : incomeStop s lo = true
      · refine ⟨d0, by simp [incomeGo, hstop], fun k => ?_⟩
        simp [incomeRows, List.range'_succ, List.takeWhile_cons, hstop]
      · rcases hok lo with ⟨q, hq⟩
        have hq2 : q = cellNum (cellAt s lo col) := readVal_ok_eq _ _ hq
        rcases ih (lo + 1) (aSet d0 (normalize_label (s.label lo))
            (dGet d0 (normalize_label (s.label lo)) + q)) hok with ⟨d, hd, hsum⟩
        refine ⟨d, by simp [incomeGo, hstop, hq, hd], fun k => ?_⟩
        have hrows : incomeRows s lo (fuel + 1) = lo :: incomeRows s (lo + 1) fuel := by
          simp [incomeRows, List.range'_succ, List.takeWhile_cons, hstop]
        by_cases hk : normalize_label (s.label lo) = k
        · have hthis := hsum k
          rw [hk, dGet_aSet_same d0 k (dGet d0 k + q)] at hthis
          have hbk : (normalize_label (s.label lo) == k) = true := by simp [hk]
          simp only [hrows, List.filter_cons, hbk, if_true, List.map_cons, List.sum_cons]
          rw [hthis, hq2]
          ring
        · have hthis := hsum k
          rw [dGet_aSet_ne d0 _ k _ (fun hne => hk hne.symm)] at hthis
          have hbk : (normalize_label (s.label lo) == k) = false := by simp [hk]
          simpa [hrows, List.filter_cons, hbk] using hthis

/-- A fallback-produced anchor lands strictly after the previous
anchor. -/
theorem fallback_bound {o : Option ℕ} {kk b : ℕ}
    (h : o.map (fun r => max (r - 1) (kk + 1)) = some b) : kk < b := by
  rcases o with _ | r
  · simp at h
  · simp only [Option.map_some'] at h
    have h2 := Option.some.inj h
    exact lt_of_lt_of_le (Nat.lt_succ_self kk) (h2 ▸ le_max_right _ _)

/-- The inner index of the group-header accumulation never moves
backwards. -/
theorem groupGo_ge (sec : Section) (ncols sumCol : ℕ) :
    ∀ (fuel j : ℕ) (t : ℚ), j ≤ (groupGo sec ncols sumCol fuel j t).2 := by
  intro fuel
  induction fuel with
  | zero => intro j t; simp [groupGo]
  | succ fuel ih =>
      intro j t
      by_cases hb : (isStrCell (secCell sec j 0) && !(rowHasDigit sec ncols j)) = true
      · simp [groupGo, hb]
      · simp only [groupGo, hb, if_false]
        exact le_trans (Nat.le_succ j) (ih (j + 1) _)

/-! The claims. -/

/-- C1 (counterexample): label normalization is not idempotent on every
input string.  The synonym rule for `gain on sale of asset` rewrites to
`gain/loss on investment`, whose slash the punctuation pass of a second
normalization strips, so normalizing twice differs from normalizing
once. -/
theorem C1_counterexample :
    normalize_label (normalize_label "gain on sale of asset") ≠
      normalize_label "gain on sale of asset" := by
  decide

set_option maxRecDepth 8192 in
/-- C1 (amended): label normalization is idempotent on the canonical
vocabulary the synonym table produces — for every replacement string of
the table, normalizing twice equals normalizing once — though not on
arbitrary raw strings. -/
theorem C1_amended :
    ((synonyms.map (fun pr => pr.2)).all
      (fun v => normalize_label (normalize_label v) == normalize_label v)) = true := by
  decide

/-- C8: `normalize_label` does not map `amortization/finance cost` to
`amortization`.  The punctuation pass replaces the slash by a space before
the synonym rules run, so the table's own
`amortization/finance cost → amortization` rule can never match, and the
result keeps the extra words (the code contradicts its own rule table;
evaluated here at the failing input in both letter cases). -/
theorem C8_dead_rule :
    normalize_label "amortization/finance cost" = "amortization finance cost" ∧
    normalize_label "Amortization/Finance Cost" = "amortization finance cost" ∧
    normalize_label "amortization/finance cost" ≠ "amortization" := by
  refine ⟨by decide, by decide, by decide⟩

/-- C2 (counterexample): the anchor ordering `rev < exp < inc` can fail
with all three anchors found: the primary scan records first occurrences
of the three whole-line headers independently, so a sheet whose headers
appear out of order yields out-of-order anchors. -/
theorem C2_counterexample :
    find_anchor_rows sheetOutOfOrder = (some 2, some 1, some 3) ∧ ¬ (2 < 1) := by
  exact ⟨by decide, by decide⟩

/-- C2 (amended): whenever all three anchors are found and the expenses
and income anchors come from the fallback heuristic (their whole-line
headers being absent from the primary scan), the ordering
`rev_start < exp_start < inc_start` holds: each fallback anchor is clamped
strictly past the previous anchor. -/
theorem C2_amended (s : ISheet) (a b c : ℕ)
    (hexp : (primaryRes s).2.1 = Option.none)
    (hinc : (primaryRes s).2.2 = Option.none)
    (h : find_anchor_rows s = (some a, some b, some c)) :
    a < b ∧ b < c := by
  have h1 : anchorRev s = some a := congrArg (fun t => t.1) h
  have h2 : anchorExp s = some b := congrArg (fun t => t.2.1) h
  have h3 : anchorInc s = some c := congrArg (fun t => t.2.2) h
  constructor
  · rw [anchorExp, hexp, h1] at h2
    exact fallback_bound h2
  · rw [anchorInc, hinc, anchorExp, hexp, h1] at h3
    rw [anchorExp, hexp, h1] at h2
    rw [h2] at h3
    exact fallback_bound h3

/-- C2 (witness): a sheet with a primary Revenue header whose Expenses and
Income anchors both come from the fallback satisfies the ordering. -/
theorem C2_witness :
    (primaryRes sheetFallback).2.1 = Option.none ∧
    (primaryRes sheetFallback).2.2 = Option.none ∧
    find_anchor_rows sheetFallback = (some 1, some 2, some 3) ∧
    (1 < 2 ∧ 2 < 3) := by
  exact ⟨by decide, by decide, by decide,
    C2_amended sheetFallback 1 2 3 (by decide) (by decide) (by decide)⟩

/-- C10: the row-classification loop of `parse_section` strictly advances
its cursor on every iteration — each non-group branch moves to `i + 1`,
and the group-header branch moves to the inner index `j`, which starts at
`i + 1` and never decreases — so the single pass over any finite section
always completes. -/
theorem C10_parse_step_advances (sec : Section) (ncols sumCol : ℕ)
    (res : List (String × ℚ)) (i : ℕ) :
    i < (parseStep sec ncols sumCol res i).2 := by
  unfold parseStep
  rcases hc : secCell sec i 0 with _ | q | str
  · exact Nat.lt_succ_self i
  · exact Nat.lt_succ_self i
  · dsimp only
    split
    · split
      · exact Nat.lt_succ_self i
      · exact Nat.lt_succ_self i
    · split
      · exact Nat.lt_succ_self i
      · split
        · exact Nat.lt_succ_self i
        · exact lt_of_lt_of_le (Nat.lt_succ_self i)
            (groupGo_ge sec ncols sumCol (sec.length - (i + 1)) (i + 1) 0)

/-- C9: when the best fuzzy match for `RENTAL INCOME` against the
prior-year sheet's column-0 texts scores below 95, or the best matches for
both `NET PROFIT/(LOSS)` and `NET RENTAL INCOME (LOSS)` score below 95,
the prior-year pass fails with the fatal error of the
last-year-income-statement stage, and no prior-year values are
extracted (the result is the error, not a map). -/
theorem C9_prior_year_abort (g : Grid) (scorer : String → String → ℕ)
    (sl : String) (s1 : ℕ)
    (h1 : extractOne scorer "RENTAL INCOME" (col0Txt g) = some (sl, s1))
    (hcond : s1 < 95 ∨
      (∃ e1 t1 e2 t2,
        extractOne scorer "NET PROFIT/(LOSS)" (col0Txt g) = some (e1, t1) ∧ t1 < 95 ∧
        extractOne scorer "NET RENTAL INCOME (LOSS)" (col0Txt g) = some (e2, t2) ∧
        t2 < 95)) :
    last_year_income g scorer = Except.error Stage.lastYearIncome := by
  unfold last_year_income
  rw [h1]
  dsimp only
  rcases hcond with hlt | ⟨e1, t1, e2, t2, he1, ht1, he2, ht2⟩
  · rw [if_pos hlt]
  · by_cases hlt : s1 < 95
    · rw [if_pos hlt]
    · rw [if_neg hlt]
      have hel : endLabelPick scorer (col0Txt g) = Except.error Stage.lastYearIncome := by
        unfold endLabelPick
        rw [he1]
        dsimp only
        rw [if_pos ht1, he2]
        dsimp only
        rw [if_pos ht2]
      rcases hf : (List.range g.nrows).find? (fun r => g.cell r 0 = Cell.txt sl) with _ | st
      · simp only [hf]
      · simp only [hf, hel]

/-- C9 (witness): a prior-year sheet with unrelated labels and a scorer
reporting 40 everywhere aborts at the last-year stage. -/
theorem C9_witness :
    extractOne (fun _ _ => 40) "RENTAL INCOME" (col0Txt lastYearGrid) =
      some ("SOMETHING ELSE", 40) ∧ 40 < 95 ∧
    last_year_income lastYearGrid (fun _ _ => 40) = Except.error Stage.lastYearIncome := by
  exact ⟨by decide, by decide,
    C9_prior_year_abort lastYearGrid (fun _ _ => 40) "SOMETHING ELSE" 40 (by decide)
      (Or.inl (by decide))⟩

/-- C3 (counterexample): with all three anchors found, a non-empty text
value in the value column makes `parse_income_sheet_ytd` fail (the
script's `dict.get(key, 0) + val` raises `TypeError` on a string), rather
than contributing zero. -/
theorem C3_counterexample :
    find_anchor_rows sheetTextValue = (some 1, some 3, some 5) ∧
    parse_income_sheet_ytd sheetTextValue = Except.error () := by
  exact ⟨by decide, by decide⟩

/-- C3 (amended): for every income sheet with all three anchors found
whose value-column cells are numeric, empty text, or missing,
`parse_income_sheet_ytd` returns without error, and each band map carries,
under every normalized label, the sum of the value-column cells of that
band's non-skipped rows with that label (missing, empty and zero cells
contributing zero); non-empty text values, by contrast, raise (previous
theorem). -/
theorem C3_amended (s : ISheet) (a b c : ℕ)
    (hanch : find_anchor_rows s = (some a, some b, some c))
    (hok : ∀ r, ∃ q, readVal (cellAt s r (find_ytd_column s)) = Except.ok q) :
    ∃ d1 d2 d3, parse_income_sheet_ytd s = Except.ok (d1, d2, d3) ∧
      (∀ k, dGet d1 k = bandSum s (find_ytd_column s) "total revenue" (a + 1) (b - 1) k) ∧
      (∀ k, dGet d2 k =
        bandSum s (find_ytd_column s) "total operating expenses" (b + 1) (c - 1) k) ∧
      (∀ k, dGet d3 k = incomeSum s (find_ytd_column s) (c + 1) (s.maxRow - c) k) := by
  rcases bandFold_spec s (find_ytd_column s) "total revenue"
      (List.range' (a + 1) ((b - 1) + 1 - (a + 1))) [] (fun r _ => hok r) with ⟨d1, hd1, hs1⟩
  rcases bandFold_spec s (find_ytd_column s) "total operating expenses"
      (List.range' (b + 1) ((c - 1) + 1 - (b + 1))) [] (fun r _ => hok r) with ⟨d2, hd2, hs2⟩
  rcases incomeFold_spec s (find_ytd_column s) (s.maxRow - c) (c + 1) [] hok
    with ⟨d3, hd3, hs3⟩
  have e1 : parseBand s (find_ytd_column s) "total revenue" (a + 1) (b - 1) =
      Except.ok d1 := hd1
  have e2 : parseBand s (find_ytd_column s) "total operating expenses" (b + 1) (c - 1) =
      Except.ok d2 := hd2
  refine ⟨d1, d2, d3, ?_, ?_, ?_, ?_⟩
  · unfold parse_income_sheet_ytd
    rw [hanch]
    dsimp only
    rw [e1, e2, hd3]
  · intro k
    have := hs1 k
    simpa [bandSum, bandRows, dGet, aGet?] using this
  · intro k
    have := hs2 k
    simpa [bandSum, bandRows, dGet, aGet?] using this
  · intro k
    have := hs3 k
    simpa [incomeSum, dGet, aGet?] using this

/-- C3 (witness): a numeric income sheet parses to the three accumulated
band maps without error. -/
theorem C3_witness :
    find_anchor_rows sheetNumeric = (some 1, some 3, some 5) ∧
    (∃ d1 d2 d3, parse_income_sheet_ytd sheetNumeric = Except.ok (d1, d2, d3) ∧
      (∀ k, dGet d1 k =
        bandSum sheetNumeric (find_ytd_column sheetNumeric) "total revenue" 2 2 k) ∧
      (∀ k, dGet d2 k =
        bandSum sheetNumeric (find_ytd_column sheetNumeric)
          "total operating expenses" 4 4 k) ∧
      (∀ k, dGet d3 k =
        incomeSum sheetNumeric (find_ytd_column sheetNumeric) 6 1 k)) := by
  refine ⟨by decide, C3_amended sheetNumeric 1 3 5 (by decide) ?_⟩
  intro r
  exact ⟨if r = 2 then 1000 else if r = 4 then 200 else if r = 6 then 50 else 0, rfl⟩

/-- C4 (counterexample): a template row whose raw text contains `total`
only inside a larger word is not skipped: the script matches `\btotal\b`
with word boundaries, not a plain substring, so a `Subtotal` row with an
exact source key is written, changing its cell. -/
theorem C4_counterexample :
    containsSub "total" (lowerStr (stripS (masterSubtotal.label 6))) = true ∧
    match_and_write masterSubtotal 6 6 [("subtotal", (5 : ℚ))] 85 (fun _ _ => 0) =
      [(6, Act.write 5 Option.none)] := by
  exact ⟨by decide, by decide⟩

/-- C4 (amended): in `match_and_write`, every row in the target range
whose raw column-1 text contains `total` as a whole word (case-insensitive
`\btotal\b`), and every row whose normalized label is blank, is skipped
and its target cell left unchanged; a substring occurrence inside a larger
word such as `Subtotal` does not trigger the skip (previous theorem). -/
theorem C4_amended (s : ISheet) (src : Acc) (t : ℕ) (scorer : String → String → ℕ)
    (lo hi r : ℕ) (hlo : lo ≤ r) (hhi : r ≤ hi)
    (hskip : normalize_label (stripS (s.label r)) = "" ∨
      containsWordCI "total" (stripS (s.label r)) = true) :
    (r, Act.skip) ∈ match_and_write s lo hi src t scorer := by
  have hmem : r ∈ List.range' lo (hi + 1 - lo) := by
    rw [List.mem_range']
    exact ⟨r - lo, by omega, by omega⟩
  have hact : rowAct s src t scorer r = Act.skip := by
    unfold rowAct
    rcases hskip with h | h
    · rw [if_pos (by simp [h])]
    · rw [if_pos (by simp [h])]
  exact List.mem_map.mpr ⟨r, hmem, by simp [hact]⟩

/-- C4 (witness): a `Total Revenue` template row is skipped. -/
theorem C4_witness :
    containsWordCI "total" (stripS (masterFuzzy.label 6)) = true ∧
    (6, Act.skip) ∈ match_and_write masterFuzzy 6 7 [] 85 (fun _ _ => 0) := by
  exact ⟨by decide,
    C4_amended masterFuzzy [] 85 (fun _ _ => 0) 6 7 6 (by decide) (by decide)
      (Or.inr (by decide))⟩

/-- C5: every fuzzy match accepted at score `sc` with threshold `t`
(`t ≤ sc ≤ 100`, `t < 100`, no exact key hit) writes the matched value
with a solid fill whose six-character color has red channel `FF`, blue
channel `00`, and green channel the integer part of
`255 (sc − t) / (100 − t)`; in particular `sc = t` gives green 0 and
`sc = 100` gives green 255. -/
theorem C5_gradient (s : ISheet) (src : Acc) (t : ℕ) (scorer : String → String → ℕ)
    (lo hi r : ℕ) (bm : String) (sc : ℕ)
    (hlo : lo ≤ r) (hhi : r ≤ hi)
    (hkey : ¬ normalize_label (stripS (s.label r)) = "")
    (htot : containsWordCI "total" (stripS (s.label r)) = false)
    (hmiss : aHas src (normalize_label (stripS (s.label r))) = false)
    (hext : extractOne scorer (normalize_label (stripS (s.label r)))
      (src.map (fun p => p.1)) = some (bm, sc))
    (ht : t ≤ sc) (hs : sc ≤ 100) (ht100 : t < 100) :
    (r, Act.write (dGet src bm) (some (fillColor sc t))) ∈
      match_and_write s lo hi src t scorer ∧
    greenChannel sc t = Int.floor ((255 : ℚ) * ((sc : ℚ) - (t : ℚ)) / ((100 : ℚ) - (t : ℚ))) ∧
    0 ≤ greenChannel sc t ∧ greenChannel sc t ≤ 255 ∧
    fillColor sc t = String.mk (['F', 'F'] ++
      [hexDigit ((greenChannel sc t).toNat / 16), hexDigit ((greenChannel sc t).toNat % 16)]
      ++ ['0', '0']) ∧
    (fillColor sc t).length = 6 ∧
    (sc = t → greenChannel sc t = 0) ∧
    (sc = 100 → greenChannel sc t = 255) := by
  have htQ : (t : ℚ) < 100 := by exact_mod_cast ht100
  have htsQ : (t : ℚ) ≤ (sc : ℚ) := by exact_mod_cast ht
  have hsQ : (sc : ℚ) ≤ 100 := by exact_mod_cast hs
  have hd : (0 : ℚ) < (100 : ℚ) - (t : ℚ) := by linarith
  have hk0 : (0 : ℚ) ≤ (sc : ℚ) - (t : ℚ) := by linarith
  have hk1 : (sc : ℚ) - (t : ℚ) ≤ (100 : ℚ) - (t : ℚ) := by linarith
  have hratio0 : (0 : ℚ) ≤ ((sc : ℚ) - (t : ℚ)) / ((100 : ℚ) - (t : ℚ)) :=
    div_nonneg hk0 (le_of_lt hd)
  have hratio1 : ((sc : ℚ) - (t : ℚ)) / ((100 : ℚ) - (t : ℚ)) ≤ 1 :=
    (div_le_one hd).mpr hk1
  refine ⟨?_, ?_, ?_, ?_, rfl, rfl, ?_, ?_⟩
  · have hmem : r ∈ List.range' lo (hi + 1 - lo) := by
      rw [List.mem_range']
      exact ⟨r - lo, by omega, by omega⟩
    have hact : rowAct s src t scorer r =
        Act.write (dGet src bm) (some (fillColor sc t)) := by
      unfold rowAct
      rw [if_neg (by simp [hkey, htot]), if_neg (by simp [hmiss]), hext]
      dsimp only
      rw [if_pos ht]
    exact List.mem_map.mpr ⟨r, hmem, by simp [hact]⟩
  · unfold greenChannel
    rw [mul_div_assoc]
  · exact Int.floor_nonneg.mpr (mul_nonneg (by norm_num) hratio0)
  · calc greenChannel sc t ≤ ⌊(255 : ℚ)⌋ := by
          apply Int.floor_le_floor
          calc (255 : ℚ) * (((sc : ℚ) - (t : ℚ)) / ((100 : ℚ) - (t : ℚ))) ≤ 255 * 1 := by
                exact mul_le_mul_of_nonneg_left hratio1 (by norm_num)
          _ = 255 := by norm_num
    _ = 255 := by norm_num
  · intro h
    subst h
    simp [greenChannel]
  · intro h
    subst h
    unfold greenChannel
    push_cast
    rw [div_self (ne_of_gt hd), mul_one]
    norm_num

/-- C5 (witness): a `Rent Revenue` template row fuzzy-matched to
`rental revenue` at score 90 with threshold 85 writes the value with the
gradient fill `FF5500` (green channel 85). -/
theorem C5_witness :
    (¬ normalize_label (stripS (masterFuzzy.label 7)) = "") ∧
    containsWordCI "total" (stripS (masterFuzzy.label 7)) = false ∧
    aHas [("rental revenue", (30 : ℚ))]
      (normalize_label (stripS (masterFuzzy.label 7))) = false ∧
    extractOne (fun _ _ => 90) (normalize_label (stripS (masterFuzzy.label 7)))
      ([("rental revenue", (30 : ℚ))].map (fun p => p.1)) = some ("rental revenue", 90) ∧
    ((7, Act.write (dGet [("rental revenue", (30 : ℚ))] "rental revenue")
        (some (fillColor 90 85))) ∈
      match_and_write masterFuzzy 6 7 [("rental revenue", (30 : ℚ))] 85 (fun _ _ => 90) ∧
      greenChannel 90 85 =
        Int.floor ((255 : ℚ) * ((90 : ℚ) - (85 : ℚ)) / ((100 : ℚ) - (85 : ℚ))) ∧
      0 ≤ greenChannel 90 85 ∧ greenChannel 90 85 ≤ 255 ∧
      fillColor 90 85 = String.mk (['F', 'F'] ++
        [hexDigit ((greenChannel 90 85).toNat / 16),
         hexDigit ((greenChannel 90 85).toNat % 16)] ++ ['0', '0']) ∧
      (fillColor 90 85).length = 6 ∧
      (90 = 85 → greenChannel 90 85 = 0) ∧
      (90 = 100 → greenChannel 90 85 = 255)) ∧
    fillColor 90 85 = "FF5500" := by
  have hg : greenChannel 90 85 = 85 := by
    unfold greenChannel
    norm_num
  have hf : fillColor 90 85 = "FF5500" := by
    unfold fillColor
    rw [hg]
    decide
  exact ⟨by decide, by decide, by decide, by decide,
    C5_gradient masterFuzzy [("rental revenue", (30 : ℚ))] 85 (fun _ _ => 90) 6 7 7
      "rental revenue" 90 (by decide) (by decide) (by decide) (by decide) (by decide)
      (by decide) (by decide) (by decide) (by decide), hf⟩

/-- Every value a `match_and_write` row writes is zero or a value of the
source map. -/
theorem rowAct_value_cases (s : ISheet) (src : Acc) (t : ℕ) (scorer : String → String → ℕ)
    (r : ℕ) :
    rowAct s src t scorer r = Act.skip ∨
    rowAct s src t scorer r = Act.write 0 Option.none ∨
    ∃ k fill, rowAct s src t scorer r = Act.write (dGet src k) fill ∧ aHas src k = true := by
  unfold rowAct
  split
  · exact Or.inl rfl
  · split
    · next hhas => exact Or.inr (Or.inr ⟨_, _, rfl, by simpa using hhas⟩)
    · split
      · next bm sc hext =>
          split
          · refine Or.inr (Or.inr ⟨bm, _, rfl, ?_⟩)
            exact aHas_of_mem_keys _ _ (extractOne_mem' scorer _ _ bm sc hext)
          · exact Or.inr (Or.inl rfl)
      · exact Or.inr (Or.inl rfl)

/-- All writes of one `match_and_write` call are halved with respect to
the base maps when the source map holds only halved base values. -/
theorem mw_halved (master : ISheet) (lo hi t : ℕ) (scorer : String → String → ℕ)
    (dv rv ex ic : Acc)
    (hdv : ∀ k, aHas dv k = true →
      ∃ p, (p ∈ rv ∨ p ∈ ex ∨ p ∈ ic) ∧ dGet dv k = p.2 / 2) :
    (match_and_write master lo hi dv t scorer).all (halvedIn rv ex ic) = true := by
  rw [List.all_eq_true]
  intro x hx
  rcases List.mem_map.mp hx with ⟨r, hr, hxr⟩
  rcases rowAct_value_cases master dv t scorer r with h | h | ⟨k, fill, h, hk⟩
  · rw [← hxr]
    simp only [h, halvedIn]
  · rw [← hxr]
    simp [h, halvedIn]
  · rw [← hxr]
    simp only [h, halvedIn]
    rcases hdv k hk with ⟨p, hp, hval⟩
    have hmemapp : p ∈ rv ++ ex ++ ic := by
      rcases hp with hp | hp | hp
      · exact List.mem_append_left _ (List.mem_append_left _ hp)
      · exact List.mem_append_left _ (List.mem_append_right _ hp)
      · exact List.mem_append_right _ hp
    have hany : ((rv ++ ex ++ ic).any (fun p => dGet dv k == p.2 / 2)) = true :=
      List.any_eq_true.mpr ⟨p, hmemapp, by simp [hval]⟩
    rw [Bool.or_eq_true]
    exact Or.inr hany

/-- C6 (amended): for a source file whose resolved site name contains
`WESTON`, every amount the income-statement YTD pass writes is zero (a
fuzzy miss) or exactly half of a value parsed from the source sheet; the
balance-sheet pass, by contrast, writes the halving *formula*
(`=({amount})/2`, modelled as `BSWrite.halfFormula`) rather than a halved
number. -/
theorem C6_amended (year : ℕ) (filename : String) (src master : ISheet)
    (headerRow threshold : ℕ) (scorer : String → String → ℕ)
    (rv ex ic : Acc) (W : List (ℕ × Act))
    (hparse : parse_income_sheet_ytd src = Except.ok (rv, ex, ic))
    (hwes : containsSub "WESTON" (resolve_site year filename) = true)
    (hrun : process_one_file_ytd year filename src master headerRow threshold scorer =
      some W) :
    W.all (halvedIn rv ex ic) = true ∧
    (∀ q : ℚ, balance_cell_value "207 Weston" q = BSWrite.halfFormula q) := by
  constructor
  · unfold process_one_file_ytd at hrun
    rw [hparse] at hrun
    dsimp only at hrun
    by_cases hemp : (rv.isEmpty && ex.isEmpty && ic.isEmpty) = true
    · rw [if_pos hemp] at hrun
      simp at hrun
    · rw [if_neg hemp] at hrun
      rcases hcol : findTargetCol master headerRow (resolve_site year filename)
        with _ | cidx
      · rw [hcol] at hrun
        simp at hrun
      · rw [hcol] at hrun
        simp only [hwes, if_true] at hrun
        have hW := (Option.some.inj hrun).symm
        subst hW
        rw [List.all_append, List.all_append]
        have hprov : ∀ (base : Acc),
            (∀ p ∈ base, p ∈ rv ∨ p ∈ ex ∨ p ∈ ic) →
            ∀ k, aHas (mapHalf base) k = true →
              ∃ p, (p ∈ rv ∨ p ∈ ex ∨ p ∈ ic) ∧ dGet (mapHalf base) k = p.2 / 2 := by
          intro base hbase k hk
          rw [aHas_mapHalf] at hk
          rcases dGet_mem_of_aHas base k hk with ⟨p, hmem, hpk, hval⟩
          exact ⟨p, hbase p hmem, by rw [dGet_mapHalf, hval]⟩
        have hp1 := mw_halved master 6 16 threshold scorer (mapHalf rv) rv ex ic
          (hprov rv (fun p hp => Or.inl hp))
        have hp2 := mw_halved master 19 33 threshold scorer (mapHalf ex) rv ex ic
          (hprov ex (fun p hp => Or.inr (Or.inl hp)))
        have hp3 := mw_halved master 38 46 threshold scorer (mapHalf ic) rv ex ic
          (hprov ic (fun p hp => Or.inr (Or.inr hp)))
        simp [hp1, hp2, hp3]
  · intro q
    simp [balance_cell_value]

/-- C6 (counterexample): the balance-sheet pass's Weston write is the
halving formula, not the halved number — at amount 10 the written cell
value is not the numeric 5 the claim asserts. -/
theorem C6_counterexample :
    balance_cell_value "207 Weston" 10 = BSWrite.halfFormula 10 ∧
    balance_cell_value "207 Weston" 10 ≠ BSWrite.num 5 := by
  exact ⟨by decide, by decide⟩

set_option maxRecDepth 100000 in
/-- C6 (witness): the Weston fixture file's YTD writes are all halved
parsed values (or zero), and the balance-sheet write is the formula. -/
theorem C6_witness :
    parse_income_sheet_ytd sheetNumeric = Except.ok
      ([("rental income", 1000)], [("advertising", 200)], [("management fee", 50)]) ∧
    containsSub "WESTON" (resolve_site 2025 "fs2025Weston.xlsx") = true ∧
    process_one_file_ytd 2025 "fs2025Weston.xlsx" sheetNumeric masterWeston 5 85
      (fun _ _ => 0) = some westonWrites ∧
    westonWrites.all (halvedIn [("rental income", 1000)] [("advertising", 200)]
      [("management fee", 50)]) = true ∧
    balance_cell_value "207 Weston" 10 = BSWrite.halfFormula 10 := by
  have hparse : parse_income_sheet_ytd sheetNumeric = Except.ok
      ([("rental income", 1000)], [("advertising", 200)], [("management fee", 50)]) := by
    with_unfolding_all rfl
  have hrun : process_one_file_ytd 2025 "fs2025Weston.xlsx" sheetNumeric masterWeston 5 85
      (fun _ _ => 0) = some westonWrites := by
    with_unfolding_all rfl
  have h := C6_amended 2025 "fs2025Weston.xlsx" sheetNumeric masterWeston 5 85
    (fun _ _ => 0) [("rental income", 1000)] [("advertising", 200)]
    [("management fee", 50)] westonWrites hparse (by decide) hrun
  exact ⟨hparse, by decide, hrun, h.1, h.2 10⟩

/-- Rows that never touch the key leave its binding unchanged. -/
theorem budgetFold_noMatch (g : Grid) (selCol totalCol : ℕ) (k : String) :
    ∀ (rows : List ℕ) (init : List (String × BTriple)),
      (∀ r ∈ rows, cellKeyIs g r k = false) →
      aGet? (rows.foldl (budgetStep g selCol totalCol) init) k = aGet? init k := by
  intro rows
  induction rows with
  | nil => intro init _; rfl
  | cons r rest ih =>
      intro init hnm
      rw [List.foldl_cons, ih _ (fun r' h' => hnm r' (List.mem_cons_of_mem _ h'))]
      have hr := hnm r (List.mem_cons_self _ _)
      rcases hc : g.cell r 0 with _ | q | str
      · simp only [budgetStep, hc]
      · simp only [budgetStep, hc]
      · have hne : ¬ (stripS str = k) := by
          rw [cellKeyIs, hc] at hr
          simpa using hr
        simp only [budgetStep, hc]
        exact aGet?_aSet_ne init (stripS str) k _ (fun hk => hne hk.symm)

/-- When the key occurs on exactly one row of the run, the final dict
holds that row's triple under the key. -/
theorem budgetFold_unique (g : Grid) (selCol totalCol : ℕ) (r : ℕ) (lbl : String)
    (hlbl : g.cell r 0 = Cell.txt lbl) :
    ∀ (rows : List ℕ) (init : List (String × BTriple)),
      r ∈ rows →
      (∀ r' ∈ rows, cellKeyIs g r' (stripS lbl) = true → r' = r) →
      aGet? (rows.foldl (budgetStep g selCol totalCol) init) (stripS lbl) =
        some (budgetTriple g selCol totalCol r) := by
  intro rows
  induction rows with
  | nil => intro init hmem _; cases hmem
  | cons r0 rest ih =>
      intro init hmem huniq
      rw [List.foldl_cons]
      by_cases hr : r ∈ rest
      · exact ih _ hr (fun r' h' hk => huniq r' (List.mem_cons_of_mem _ h') hk)
      · have hr0 : r0 = r := by
          rcases List.mem_cons.mp hmem with h | h
          · exact h.symm
          · exact absurd h hr
        subst hr0
        have hnm : ∀ r' ∈ rest, cellKeyIs g r' (stripS lbl) = false := by
          intro r' h'
          by_contra hx
          have hx' : cellKeyIs g r' (stripS lbl) = true := by
            revert hx
            cases cellKeyIs g r' (stripS lbl) <;> simp
          exact hr ((huniq r' (List.mem_cons_of_mem _ h') hx') ▸ h')
        rw [budgetFold_noMatch g selCol totalCol (stripS lbl) rest _ hnm]
        simp only [budgetStep, hlbl]
        exact aGet?_aSet_same init (stripS lbl) _

/-- C7: for every labeled row of the extracted budget run whose stripped
label occurs on no other row of the run, the extraction records the
triple: month value = numeric parse of the selected-month cell, YTD value
= numeric sum of columns 2 through the selected-month column inclusive
(non-numeric cells skipped), annual value = numeric parse of the total
column (one past the last month's column). -/
theorem C7_budget_rows (g : Grid) (year : ℕ) (month : String)
    (selCol start endRow totalCol r : ℕ) (lbl : String)
    (h1 : budgetSelCol g year month = some selCol)
    (h2 : budgetStart g = some start)
    (h3 : budgetEnd g = some endRow)
    (h4 : budgetTotalCol g year = some totalCol)
    (hr : r ∈ List.range' start (endRow - start))
    (hlbl : g.cell r 0 = Cell.txt lbl)
    (huniq : ∀ r' ∈ List.range' start (endRow - start),
      cellKeyIs g r' (stripS lbl) = true → r' = r) :
    ∃ res, budget_results g year month = some res ∧
      aGet? res (stripS lbl) =
        some (toNumC (g.cell r selCol), ytdSum g r selCol, toNumC (g.cell r totalCol)) := by
  refine ⟨(List.range' start (endRow - start)).foldl (budgetStep g selCol totalCol) [],
    ?_, ?_⟩
  · simp [budget_results, h1, h2, h3, h4]
  · have := budgetFold_unique g selCol totalCol r lbl hlbl
      (List.range' start (endRow - start)) [] hr huniq
    simpa [budgetTriple] using this

set_option maxRecDepth 100000 in
/-- C7 (witness): in the fixture budget grid with June selected, the
`Rental Revenue` row's triple is the June cell, the January-through-June
sum over columns 2–7, and the column-14 annual total. -/
theorem C7_witness :
    budgetSelCol budgetGrid 2025 "Jun" = some 7 ∧
    budgetStart budgetGrid = some 1 ∧
    budgetEnd budgetGrid = some 3 ∧
    budgetTotalCol budgetGrid 2025 = some 14 ∧
    (1 : ℕ) ∈ List.range' 1 (3 - 1) ∧
    budgetGrid.cell 1 0 = Cell.txt "Rental Revenue" ∧
    (∃ res, budget_results budgetGrid 2025 "Jun" = some res ∧
      aGet? res (stripS "Rental Revenue") =
        some (toNumC (budgetGrid.cell 1 7), ytdSum budgetGrid 1 7,
          toNumC (budgetGrid.cell 1 14))) := by
  have h1 : budgetSelCol budgetGrid 2025 "Jun" = some 7 := by with_unfolding_all rfl
  have h4 : budgetTotalCol budgetGrid 2025 = some 14 := by with_unfolding_all rfl
  exact ⟨h1, by decide, by decide, h4, by decide, by decide,
    C7_budget_rows budgetGrid 2025 "Jun" 7 1 3 14 1 "Rental Revenue" h1
      (by decide) (by decide) h4 (by decide) (by decide) (by decide)⟩

end FinConsol
